import Mathlib

/-!
# Verification of the shadow-boxing interval timer (src/app.js)

A shallow embedding of the timing core of `src/app.js`: the workout phase
state machine (`startPrepare`, `startWorkPhase`, `startRestPhase`,
`handlePhaseComplete`, `pauseWorkout`, `resumeWorkout`, `stopWorkout`,
`resyncTimer`, `updateTimer`), the combo generator (`generateCombo` over
`COMBO_LIBRARY` with `usedComboIndices`), the combo scheduler
(`startComboInterval`), and the breathing cycle runner
(`runBreathingCycle` over `BREATHING_PATTERNS`).

JavaScript numbers that can become `NaN` are embedded as `JsNum`
(`NaN`-propagating arithmetic); `null`-able fields are `Option`s.
DOM writes are kept only where the program later reads them back
(`roundCounterText`, read by `resumeWorkout`). Audio and haptic side
effects are elided; scheduled-callback handles are embedded as Boolean
"interval active" flags, set where the source calls `setInterval` and
cleared where it calls `clearInterval`.
-/

set_option maxRecDepth 10000

/-- A JavaScript number that may be `NaN` (e.g. `parseInt` of a
non-numeric string). Arithmetic propagates `NaN`. -/
inductive JsNum
  | nan
  | num (v : Int)
deriving DecidableEq

def jsAdd : JsNum → JsNum → JsNum
  | .num a, .num b => .num (a + b)
  | _, _ => .nan

def jsSub : JsNum → JsNum → JsNum
  | .num a, .num b => .num (a - b)
  | _, _ => .nan

def jsMul : JsNum → JsNum → JsNum
  | .num a, .num b => .num (a * b)
  | _, _ => .nan

/-- JavaScript coercion of a possibly-`null` number used in arithmetic:
`null` coerces to `0`. -/
def jsCoerce : Option JsNum → JsNum
  | none => .num 0
  | some x => x

/-- JavaScript truthiness test on a possibly-`null` number:
`null`, `NaN` and `0` are falsy (the `!state.endDate` guard in
`updateTimer`, src/app.js:474). -/
def jsFalsy : Option JsNum → Bool
  | none => true
  | some .nan => true
  | some (.num v) => v = 0

/-- Numeric value of a non-falsy `endDate` (used only after the
falsy-guard has passed, where the value is a proper number). -/
def jsVal : Option JsNum → Int
  | some (.num v) => v
  | _ => 0

/-- `state.workoutState` values (src/app.js:163). -/
inductive WorkoutState
  | idle
  | prepare
  | work
  | rest
  | paused
  | finished
deriving DecidableEq

/-- JavaScript `String.prototype.includes` on exploded strings:
`listIncludes sub l` is true when `sub` occurs contiguously in `l`. -/
def listIncludes (sub : List Char) : List Char → Bool
  | [] => sub.isEmpty
  | c :: rest => sub.isPrefixOf (c :: rest) || listIncludes sub rest

/-- `s.includes(sub)` from src/app.js:685. -/
def jsIncludes (s sub : String) : Bool := listIncludes sub.toList s.toList

/-- The timing-relevant slice of the global `state` object
(src/app.js:161-197) together with the DOM round counter text
(read back by `resumeWorkout`) and the two `setInterval` handles
(`timerInterval`, `comboInterval`) abstracted as active-flags. -/
structure AppState where
  workoutState : WorkoutState
  currentRound : Nat
  totalRounds : Nat
  roundDuration : JsNum
  restDuration : JsNum
  endDate : Option JsNum
  pausedRemaining : Option JsNum
  timerIntervalActive : Bool
  comboIntervalActive : Bool
  singleComboMode : Bool
  roundCounterText : String
deriving DecidableEq

/-- The initial `state` literal (src/app.js:161-197) plus the initial
round-counter text written by `init()` (src/app.js:936). -/
def initState : AppState :=
  { workoutState := .idle
    currentRound := 0
    totalRounds := 6
    roundDuration := .num 180
    restDuration := .num 60
    endDate := none
    pausedRemaining := none
    timerIntervalActive := false
    comboIntervalActive := false
    singleComboMode := false
    roundCounterText := "0 / 6" }

/-- `startPrepare()` (src/app.js:527-546): enters `prepare`, resets the
round, sets a 3000 ms deadline and installs the 50 ms timer interval. -/
def startPrepare (s : AppState) (now : Int) : AppState :=
  { s with workoutState := .prepare
           currentRound := 0
           endDate := some (.num (now + 3000))
           timerIntervalActive := true }

/-- `startWorkPhase()` (src/app.js:548-583): enters `work`, increments
the round, rewrites the round counter text, re-reads the round duration
from the input control (passed here as `roundInput`, the result of
`parseInt(elements.roundDuration.value)`) and sets
`endDate = now + roundDuration * 1000`. -/
def startWorkPhase (s : AppState) (now : Int) (roundInput : JsNum) : AppState :=
  { s with workoutState := .work
           currentRound := s.currentRound + 1
           roundCounterText :=
             toString (s.currentRound + 1) ++ " / " ++ toString s.totalRounds
           roundDuration := roundInput
           endDate := some (jsAdd (.num now) (jsMul roundInput (.num 1000))) }

/-- `startRestPhase()` (src/app.js:610-633): enters `rest`, clears the
combo interval, re-reads the rest duration (`restInput` is
`parseInt(elements.restDuration.value)`) and sets
`endDate = now + restDuration * 1000`. -/
def startRestPhase (s : AppState) (now : Int) (restInput : JsNum) : AppState :=
  { s with workoutState := .rest
           comboIntervalActive := false
           restDuration := restInput
           endDate := some (jsAdd (.num now) (jsMul restInput (.num 1000))) }

/-- `finishWorkout()` (src/app.js:635-667): enters `finished` and clears
both intervals. `endDate` is not touched. -/
def finishWorkout (s : AppState) : AppState :=
  { s with workoutState := .finished
           timerIntervalActive := false
           comboIntervalActive := false }

/-- `handlePhaseComplete()` (src/app.js:511-525): prepare → work;
work → finished when `currentRound >= totalRounds`, otherwise rest;
rest → work. -/
def handlePhaseComplete (s : AppState) (now : Int) (roundInput restInput : JsNum) :
    AppState :=
  match s.workoutState with
  | .prepare => startWorkPhase s now roundInput
  | .work =>
      if s.totalRounds ≤ s.currentRound then finishWorkout s
      else startRestPhase s now restInput
  | .rest => startWorkPhase s now roundInput
  | _ => s

/-- `pauseWorkout()` (src/app.js:669-681): enters `paused`, stores
`pausedRemaining = endDate - now`, clears only the combo interval.
The timer interval and `endDate` are left untouched. -/
def pauseWorkout (s : AppState) (now : Int) : AppState :=
  { s with workoutState := .paused
           pausedRemaining := some (jsSub (jsCoerce s.endDate) (.num now))
           comboIntervalActive := false }

/-- `resumeWorkout()` (src/app.js:683-702): decides the phase by
checking whether the round counter DOM text contains the digits of
`currentRound`, sets `endDate = now + pausedRemaining`, and restarts
the combo interval when resuming into work. -/
def resumeWorkout (s : AppState) (now : Int) : AppState :=
  let wasWork := jsIncludes s.roundCounterText (toString s.currentRound)
  let newState := if wasWork then WorkoutState.work else WorkoutState.rest
  { s with workoutState := newState
           endDate := some (jsAdd (.num now) (jsCoerce s.pausedRemaining))
           comboIntervalActive :=
             if newState = .work then true else s.comboIntervalActive }

/-- `stopWorkout()` (src/app.js:704-727): forces `idle`, resets the
round, rewrites the round counter text, clears both intervals.
`endDate` and `pausedRemaining` are not cleared. -/
def stopWorkout (s : AppState) : AppState :=
  { s with workoutState := .idle
           currentRound := 0
           roundCounterText := "0 / " ++ toString s.totalRounds
           timerIntervalActive := false
           comboIntervalActive := false }

/-- `resyncTimer()` (src/app.js:729-739): during work or rest, resets
the deadline to `now + full configured phase duration`. -/
def resyncTimer (s : AppState) (now : Int) : AppState :=
  match s.workoutState with
  | .work => { s with endDate := some (jsAdd (.num now) (jsMul s.roundDuration (.num 1000))) }
  | .rest => { s with endDate := some (jsAdd (.num now) (jsMul s.restDuration (.num 1000))) }
  | _ => s

/-- Countdown cues of `updateTimer` (src/app.js:493-499):
`last_10_seconds.mp3`, the numbered `1.mp3`/`2.mp3`/`3.mp3`, and
`beep.mp3`. -/
inductive Cue
  | tenSeconds
  | number (n : Nat)
  | beep
deriving DecidableEq

/-- The countdown-cue selection of `updateTimer` (src/app.js:485-500)
as a pure function of the remaining milliseconds.  The source works in
seconds at 50 ms resolution: `remaining = remainingMs / 1000`,
`currentSecond = Math.floor(remaining)`,
`prevSecond = Math.floor(remaining + 0.05)`; since deadlines and `now`
are integer milliseconds these floors are exactly `remainingMs / 1000`
and `(remainingMs + 50) / 1000` in integer division. -/
def cueAt (remainingMs : Int) : Option Cue :=
  if remainingMs ≤ 10000 ∧ 0 < remainingMs then
    let currentSecond := remainingMs.toNat / 1000
    let prevSecond := (remainingMs.toNat + 50) / 1000
    if currentSecond ≠ prevSecond then
      if currentSecond = 9 then some .tenSeconds
      else if currentSecond ≤ 2 then some (.number (currentSecond + 1))
      else if currentSecond < 9 ∧ 2 < currentSecond then some .beep
      else none
    else none
  else none

/-- `updateTimer()` (src/app.js:473-508): no-op when `endDate` is falsy
(`null`, `NaN`, `0`) or the workout is paused; otherwise computes the
clamped remaining time, selects a countdown cue, and fires
`handlePhaseComplete` when the remaining time has reached zero.
Returns the new state and the cue played this tick. -/
def updateTimer (s : AppState) (now : Int) (roundInput restInput : JsNum) :
    AppState × Option Cue :=
  if jsFalsy s.endDate = true ∨ s.workoutState = .paused then (s, none)
  else
    let remainingMs : Int := max 0 (jsVal s.endDate - now)
    let cue := cueAt remainingMs
    if remainingMs ≤ 0 then (handlePhaseComplete s now roundInput restInput, cue)
    else (s, cue)

/-- A full, uninterrupted run: the sequence of phase states produced by
letting every phase run to its deadline (each tick that reaches zero
calls `handlePhaseComplete`).  Records the state after each phase
completion. -/
def workoutTrace (now : Int) (rIn sIn : JsNum) : Nat → AppState → List WorkoutState
  | 0, _ => []
  | n + 1, s =>
    let s' := handlePhaseComplete s now rIn sIn
    s'.workoutState :: workoutTrace now rIn sIn n s'

lemma workoutTrace_succ (now : Int) (rIn sIn : JsNum) (n : Nat) (s : AppState) :
    workoutTrace now rIn sIn (n + 1) s
      = (handlePhaseComplete s now rIn sIn).workoutState
          :: workoutTrace now rIn sIn n (handlePhaseComplete s now rIn sIn) := rfl

/-- The alternating `rest, work, rest, work, …` segment of a run:
`k` rest/work pairs. -/
def restWorkPairs : Nat → List WorkoutState
  | 0 => []
  | k + 1 => WorkoutState.rest :: WorkoutState.work :: restWorkPairs k

lemma restWorkPairs_count_work (k : Nat) :
    (restWorkPairs k).count .work = k := by
  induction k with
  | zero => rfl
  | succ k ih => simp [restWorkPairs, List.count_cons, ih]

lemma restWorkPairs_count_rest (k : Nat) :
    (restWorkPairs k).count .rest = k := by
  induction k with
  | zero => rfl
  | succ k ih => simp [restWorkPairs, List.count_cons, ih]

/-- From a work phase with `k` rounds still to go after the current one,
the remaining run is `k` rest/work pairs followed by `finished`. -/
lemma workoutTrace_from_work (now : Int) (rIn sIn : JsNum) :
    ∀ (k : Nat) (s : AppState), s.workoutState = .work →
      s.totalRounds = s.currentRound + k →
      workoutTrace now rIn sIn (2 * k + 1) s
        = restWorkPairs k ++ [WorkoutState.finished] := by
  intro k
  induction k with
  | zero =>
    intro s hw ht
    have hle : s.totalRounds ≤ s.currentRound := by omega
    simp [workoutTrace, handlePhaseComplete, hw, hle, finishWorkout, restWorkPairs]
  | succ k ih =>
    intro s hw ht
    have hnle : ¬ s.totalRounds ≤ s.currentRound := by omega
    have h2 : 2 * (k + 1) + 1 = (2 * k + 1) + 1 + 1 := by ring
    rw [h2, workoutTrace_succ, workoutTrace_succ]
    have hrest : handlePhaseComplete s now rIn sIn = startRestPhase s now sIn := by
      simp [handlePhaseComplete, hw, hnle]
    rw [hrest]
    have hrw : handlePhaseComplete (startRestPhase s now sIn) now rIn sIn
        = startWorkPhase (startRestPhase s now sIn) now rIn := by
      simp [handlePhaseComplete, startRestPhase]
    rw [hrw]
    have hstep := ih (startWorkPhase (startRestPhase s now sIn) now rIn)
      (by simp [startWorkPhase]) (by simp [startWorkPhase, startRestPhase]; omega)
    rw [hstep]
    simp [startRestPhase, startWorkPhase, restWorkPairs]

/-- The phase trace of a full run started from an idle/finished state
via `startPrepare` with `totalRounds := T`, followed until `finished`. -/
def fullRunTrace (T : Nat) (now0 now : Int) (rIn sIn : JsNum) : List WorkoutState :=
  workoutTrace now rIn sIn (2 * T)
    (startPrepare { initState with totalRounds := T } now0)

/-- C1: for every valid configuration (positive durations,
`totalRounds ≥ 1`), a full uninterrupted run passes through exactly
`totalRounds` work phases and `totalRounds − 1` rest phases before
entering `finished`, and a work-phase completion that finds
`currentRound = totalRounds` transitions to `finished`, never to rest. -/
theorem c1_full_run (T : Nat) (now0 now : Int) (rSec sSec : Int)
    (hT : 1 ≤ T) (hr : 0 < rSec) (hs : 0 < sSec) :
    fullRunTrace T now0 now (.num rSec) (.num sSec)
      = WorkoutState.work :: (restWorkPairs (T - 1) ++ [WorkoutState.finished])
    ∧ (fullRunTrace T now0 now (.num rSec) (.num sSec)).count .work = T
    ∧ (fullRunTrace T now0 now (.num rSec) (.num sSec)).count .rest = T - 1
    ∧ (∀ s : AppState, s.workoutState = .work → s.currentRound = s.totalRounds →
        (handlePhaseComplete s now (.num rSec) (.num sSec)).workoutState
          = .finished) := by
  obtain ⟨k, rfl⟩ : ∃ k, T = k + 1 := ⟨T - 1, by omega⟩
  have htrace :
      fullRunTrace (k + 1) now0 now (.num rSec) (.num sSec)
        = WorkoutState.work :: (restWorkPairs k ++ [WorkoutState.finished]) := by
    unfold fullRunTrace
    have h2 : 2 * (k + 1) = (2 * k + 1) + 1 := by ring
    rw [h2, workoutTrace_succ]
    have hprep : handlePhaseComplete
        (startPrepare { initState with totalRounds := k + 1 } now0) now
        (.num rSec) (.num sSec)
        = startWorkPhase (startPrepare { initState with totalRounds := k + 1 } now0)
            now (.num rSec) := by
      simp [handlePhaseComplete, startPrepare]
    rw [hprep]
    have hstep := workoutTrace_from_work now (.num rSec) (.num sSec) k
      (startWorkPhase (startPrepare { initState with totalRounds := k + 1 } now0)
        now (.num rSec))
      (by simp [startWorkPhase])
      (by simp [startWorkPhase, startPrepare, initState]; omega)
    rw [hstep]
    simp [startWorkPhase]
  refine ⟨htrace, ?_, ?_, ?_⟩
  · rw [htrace]
    simp [List.count_cons, List.count_append, restWorkPairs_count_work]
  · rw [htrace]
    simp [List.count_cons, List.count_append, restWorkPairs_count_rest]
  · intro s hw heq
    have hle : s.totalRounds ≤ s.currentRound := by omega
    simp [handlePhaseComplete, hw, hle, finishWorkout]

theorem c1_full_run_witness :
    1 ≤ 2 ∧ (0:Int) < 180 ∧ (0:Int) < 60
    ∧ fullRunTrace 2 0 0 (JsNum.num 180) (JsNum.num 60)
        = WorkoutState.work :: (restWorkPairs 1 ++ [WorkoutState.finished]) :=
  ⟨by decide, by decide, by decide,
    (c1_full_run 2 0 0 180 60 (by decide) (by decide) (by decide)).1⟩

/-- A two-round configuration, as set by the play-button handler before
`startPrepare` (src/app.js:746). -/
def c2Config : AppState := { initState with totalRounds := 2 }

def c2AfterPrepare : AppState := startPrepare c2Config 0

/-- Work phase of round 1 (prepare deadline reached at t = 3000). -/
def c2Work1 : AppState :=
  handlePhaseComplete c2AfterPrepare 3000 (.num 180) (.num 60)

/-- Rest phase after round 1 (work deadline reached at t = 183000). -/
def c2Rest : AppState :=
  handlePhaseComplete c2Work1 183000 (.num 180) (.num 60)

/-- Paused during the rest phase at t = 190000. -/
def c2Paused : AppState := pauseWorkout c2Rest 190000

/-- C2 counterexample: a session paused during a rest phase resumes
into the *work* phase — `resumeWorkout` re-derives the phase from the
round-counter DOM text (which always contains the digits of
`currentRound`), not from a stored phase flag, so the rest phase is
not restored. -/
theorem c2_counterexample :
    c2Rest.workoutState = .rest
    ∧ c2Paused.workoutState = .paused
    ∧ (resumeWorkout c2Paused 200000).workoutState = .work := by decide

lemma isPrefixOf_append_self (l r : List Char) :
    l.isPrefixOf (l ++ r) = true := by
  induction l with
  | nil => simp [List.isPrefixOf]
  | cons a as ih => simp [List.isPrefixOf, ih]

lemma listIncludes_nil (l : List Char) : listIncludes [] l = true := by
  induction l with
  | nil => rfl
  | cons c rest ih => simp [listIncludes, List.isPrefixOf]

lemma listIncludes_append_self (sub rest : List Char) :
    listIncludes sub (sub ++ rest) = true := by
  cases sub with
  | nil => simpa using listIncludes_nil rest
  | cons c t =>
      simp only [List.cons_append, listIncludes, Bool.or_eq_true]
      left
      simpa [List.cons_append] using isPrefixOf_append_self (c :: t) rest

lemma jsIncludes_self_append (pre post : String) :
    jsIncludes (pre ++ post) pre = true := by
  unfold jsIncludes
  have hdata : (pre ++ post).toList = pre.toList ++ post.toList := by
    simp [String.toList]
  rw [hdata]
  exact listIncludes_append_self pre.toList post.toList

/-- C2 amended: `resume()` does restore `deadline = now + pausedRemainingMs`,
but the phase is re-derived from the round-counter display text rather
than a stored phase flag; whenever that text starts with the digits of
`currentRound` — which holds for every value the program writes — resume
re-enters the work phase, even when the pause happened during rest. -/
theorem c2_amended (s : AppState) (now p : Int) (rest : String)
    (hp : s.pausedRemaining = some (JsNum.num p))
    (ht : s.roundCounterText = toString s.currentRound ++ rest) :
    (resumeWorkout s now).workoutState = .work
    ∧ (resumeWorkout s now).endDate = some (JsNum.num (now + p)) := by
  have hw : jsIncludes s.roundCounterText (toString s.currentRound) = true := by
    rw [ht]; exact jsIncludes_self_append _ _
  constructor
  · simp [resumeWorkout, hw]
  · simp [resumeWorkout, hp, jsCoerce, jsAdd]

theorem c2_amended_witness :
    (c2Paused.pausedRemaining = some (JsNum.num 53000)
      ∧ c2Paused.roundCounterText = toString c2Paused.currentRound ++ " / 2")
    ∧ (resumeWorkout c2Paused 200000).workoutState = .work
    ∧ (resumeWorkout c2Paused 200000).endDate
        = some (JsNum.num (200000 + 53000)) :=
  ⟨⟨by decide, by decide⟩,
    c2_amended c2Paused 200000 53000 " / 2" (by decide) (by decide)⟩

/-- The work phase of round 1 reached from a fresh start: the 50 ms
timer interval installed by `startPrepare` is running. -/
def c5Work : AppState :=
  handlePhaseComplete (startPrepare initState 0) 3000 (.num 180) (.num 60)

/-- C5 counterexample: `pauseWorkout` clears only the combo interval;
the phase-timer re-evaluation interval is still scheduled after the
pause (`clearInterval(state.timerInterval)` is absent from
`pauseWorkout`, src/app.js:669-681). -/
theorem c5_counterexample :
    c5Work.timerIntervalActive = true
    ∧ (pauseWorkout c5Work 5000).workoutState = .paused
    ∧ (pauseWorkout c5Work 5000).timerIntervalActive = true := by decide

/-- C5 amended: `stop()` cancels both periodic callbacks; `pause()`
cancels only the combo scheduler's interval and leaves the phase-timer
interval running, whose callback is a no-op in the paused state (the
paused guard in `updateTimer`), so no phase completion can fire while
paused. -/
theorem c5_amended (s : AppState) (now : Int) (rIn sIn : JsNum) :
    (stopWorkout s).timerIntervalActive = false
    ∧ (stopWorkout s).comboIntervalActive = false
    ∧ (pauseWorkout s now).comboIntervalActive = false
    ∧ (pauseWorkout s now).timerIntervalActive = s.timerIntervalActive
    ∧ updateTimer (pauseWorkout s now) now rIn sIn = (pauseWorkout s now, none) := by
  refine ⟨rfl, rfl, rfl, rfl, ?_⟩
  simp [updateTimer, pauseWorkout]

/-- C6 counterexample: while paused (and after a subsequent stop) the
deadline `endDate` is still a defined number — it is never cleared. -/
theorem c6_counterexample :
    (pauseWorkout (startPrepare initState 0) 500).workoutState = .paused
    ∧ (pauseWorkout (startPrepare initState 0) 500).endDate
        = some (JsNum.num 3000)
    ∧ (stopWorkout (pauseWorkout (startPrepare initState 0) 500)).workoutState
        = .idle
    ∧ (stopWorkout (pauseWorkout (startPrepare initState 0) 500)).endDate
        = some (JsNum.num 3000) := by decide

/-- The user/scheduler commands that drive the workout session after a
start: a deadline expiry (`complete`), the pause/resume/stop/resync
buttons, and a 50 ms timer tick. -/
inductive WorkoutCmd
  | complete (now : Int) (roundInput restInput : JsNum)
  | pause (now : Int)
  | resume (now : Int)
  | stop
  | resync (now : Int)
  | tick (now : Int) (roundInput restInput : JsNum)

def execCmd (s : AppState) : WorkoutCmd → AppState
  | .complete now r t => handlePhaseComplete s now r t
  | .pause now => pauseWorkout s now
  | .resume now => resumeWorkout s now
  | .stop => stopWorkout s
  | .resync now => resyncTimer s now
  | .tick now r t => (updateTimer s now r t).1

def execCmds (s : AppState) (cmds : List WorkoutCmd) : AppState :=
  cmds.foldl execCmd s

lemma execCmd_endDate_isSome (s : AppState) (cmd : WorkoutCmd)
    (h : s.endDate.isSome = true) : (execCmd s cmd).endDate.isSome = true := by
  cases cmd with
  | complete now r t =>
      simp only [execCmd, handlePhaseComplete]
      split
      · simp [startWorkPhase]
      · split
        · simpa [finishWorkout] using h
        · simp [startRestPhase]
      · simp [startWorkPhase]
      · exact h
  | pause now => simpa [execCmd, pauseWorkout] using h
  | resume now => simp [execCmd, resumeWorkout]
  | stop => simpa [execCmd, stopWorkout] using h
  | resync now =>
      simp only [execCmd, resyncTimer]
      split
      · simp
      · simp
      · exact h
  | tick now r t =>
      simp only [execCmd, updateTimer]
      split
      · exact h
      · split
        · simp only [handlePhaseComplete]
          split
          · simp [startWorkPhase]
          · split
            · simpa [finishWorkout] using h
            · simp [startRestPhase]
          · simp [startWorkPhase]
          · exact h
        · exact h

/-- C6 amended: before the first start `endDate` is `null`, and it is a
defined number in every phase in {prepare, work, rest}; but the "only
if" direction of the claim fails: `endDate` is never cleared, so after
`startPrepare` it stays defined through every sequence of commands —
including while paused, after `stop()` returns to idle, and after the
workout finishes. Stale deadlines are neutralized by the state guard in
`updateTimer`, not by being unset. -/
theorem c6_amended (s : AppState) (now : Int) (cmds : List WorkoutCmd) :
    initState.endDate = none
    ∧ (execCmds (startPrepare s now) cmds).endDate.isSome = true := by
  refine ⟨rfl, ?_⟩
  have hstart : (startPrepare s now).endDate.isSome = true := by
    simp [startPrepare]
  induction cmds generalizing s now with
  | nil => exact hstart
  | cons cmd rest ih =>
      have hstep := execCmd_endDate_isSome (startPrepare s now) cmd hstart
      show (execCmds (execCmd (startPrepare s now) cmd) rest).endDate.isSome = true
      clear ih
      generalize hgen : execCmd (startPrepare s now) cmd = s1 at hstep
      clear hgen hstart
      induction rest generalizing s1 with
      | nil => exact hstep
      | cons c cs ih2 =>
          exact ih2 (execCmd s1 c) (execCmd_endDate_isSome s1 c hstep)

/-- C7: the code has no fallback for a non-numeric duration value read
at a work-phase boundary: `parseInt` yields `NaN`, which propagates
into `endDate = now + NaN * 1000 = NaN`, after which every timer tick
returns early on the falsy-guard (`!state.endDate` is true for `NaN`),
so the countdown is frozen and no phase completion can ever fire. -/
theorem c7_nan_propagation (s : AppState) (now0 now : Int) (rIn sIn : JsNum) :
    (startWorkPhase s now0 JsNum.nan).endDate = some JsNum.nan
    ∧ updateTimer (startWorkPhase s now0 JsNum.nan) now rIn sIn
        = (startWorkPhase s now0 JsNum.nan, none) := by
  constructor
  · simp [startWorkPhase, jsAdd, jsMul]
  · simp [updateTimer, startWorkPhase, jsFalsy, jsAdd, jsMul]

/-- Remaining milliseconds at the k-th 50 ms tick of a phase whose
remaining time starts at 10.04 s (the scenario of §8 of the spec). -/
def c8Remaining (k : Nat) : Int := 10040 - 50 * (k : Int)

/-- The cue played at each of the 202 ticks it takes this phase to
count down to zero. -/
def c8CueTrace : List (Option Cue) :=
  (List.range 202).map (fun k => cueAt (c8Remaining k))

/-- The integer second at each tick on which a countdown cue fires. -/
def c8FiredSeconds : List Nat :=
  (List.range 202).filterMap (fun k =>
    if (cueAt (c8Remaining k)).isSome then some ((c8Remaining k).toNat / 1000)
    else none)

/-- C8: with remaining = 10.04 s ticking down at 50 ms resolution, the
ten-seconds cue fires exactly once, at tick 1 — the unique first tick
where `floor(remaining)` equals 9 — and no countdown cue fires twice
for the same integer second (the fired-second list is
`[9, 8, …, 1, 0]`, without duplicates). -/
theorem c8_ten_seconds_cue :
    c8CueTrace.count (some Cue.tenSeconds) = 1
    ∧ cueAt (c8Remaining 1) = some Cue.tenSeconds
    ∧ List.find? (fun k => (c8Remaining k).toNat / 1000 == 9) (List.range 202)
        = some 1
    ∧ c8FiredSeconds = [9, 8, 7, 6, 5, 4, 3, 2, 1, 0]
    ∧ c8FiredSeconds.Nodup := by decide

/-- Difficulty tiers (src/app.js:172, 319-321). -/
inductive Difficulty
  | easy
  | medium
  | hard
deriving DecidableEq

/-- A combo token: a numbered punch or a named defensive move
(src/app.js:114-130, 359-361). -/
inductive MoveToken
  | punch (n : Nat)
  | defense (move : String)
deriving DecidableEq

/-- `COMBO_LIBRARY` (src/app.js:362-412): the curated per-tier combo
lists (easy 10 entries, medium 15, hard 15). -/
def COMBO_LIBRARY : Difficulty → List (List MoveToken)
  | .easy =>
    [[.punch 1, .punch 1],
     [.punch 1, .punch 2],
     [.punch 1, .punch 1, .punch 2],
     [.punch 1, .punch 2, .punch 1],
     [.punch 2, .punch 1],
     [.punch 1, .punch 3],
     [.punch 1, .punch 2, .punch 3],
     [.punch 3, .punch 2],
     [.punch 1, .punch 6],
     [.punch 2, .punch 3]]
  | .medium =>
    [[.punch 1, .punch 2, .punch 1, .punch 2],
     [.punch 1, .punch 2, .punch 3, .punch 2],
     [.punch 1, .punch 6, .punch 3, .punch 2],
     [.punch 1, .punch 2, .punch 3, .punch 4],
     [.punch 1, .punch 2, .punch 5, .punch 2],
     [.punch 2, .punch 3, .punch 2],
     [.punch 1, .punch 1, .punch 2, .punch 3],
     [.punch 5, .punch 2, .punch 3],
     [.punch 6, .punch 3, .punch 2],
     [.punch 1, .punch 2, .punch 3, .punch 6, .punch 3],
     [.punch 3, .punch 2, .punch 1],
     [.punch 1, .punch 3, .punch 2],
     [.punch 4, .punch 1, .punch 2],
     [.punch 6, .punch 5, .punch 2, .punch 1, .punch 2],
     [.punch 1, .punch 2, .punch 3, .punch 2, .punch 1]]
  | .hard =>
    [[.punch 1, .punch 2, .defense "slip", .punch 1, .punch 2],
     [.punch 1, .punch 2, .defense "roll", .punch 3, .punch 2],
     [.punch 6, .punch 5, .punch 2, .punch 1, .defense "pivot"],
     [.punch 1, .defense "slip", .punch 2, .punch 3, .punch 2],
     [.punch 1, .punch 2, .punch 3, .defense "roll", .punch 3, .punch 2, .punch 3],
     [.punch 4, .punch 3, .punch 6, .punch 1, .punch 2, .punch 3],
     [.punch 1, .punch 2, .punch 3, .punch 4, .punch 5, .punch 6],
     [.punch 1, .punch 6, .punch 3, .punch 2, .defense "pivot"],
     [.punch 1, .punch 1, .punch 2, .defense "slip", .punch 3, .punch 2],
     [.punch 2, .defense "duck", .punch 5, .punch 2, .punch 3],
     [.punch 1, .punch 2, .defense "roll", .punch 5, .punch 6, .punch 3, .punch 2],
     [.punch 6, .punch 3, .defense "pivot", .punch 1, .punch 2],
     [.punch 1, .punch 2, .punch 3, .punch 2, .defense "slip", .punch 1, .punch 2],
     [.punch 3, .punch 6, .punch 3, .punch 2, .punch 1, .punch 2],
     [.punch 1, .defense "duck", .punch 6, .punch 3, .punch 2, .defense "pivot"]]

/-- The `do … while (used.includes(comboIndex))` rejection loop of
`generateCombo` (src/app.js:429-431): the loop keeps drawing
`Math.floor(Math.random() * combos.length)` until the draw is unused,
i.e. it returns the first element of the draw stream not in `used`
(`none` when the finite stream supplied is exhausted first). -/
def pickFirstUnused (used : List Nat) : List Nat → Option Nat
  | [] => none
  | d :: ds => if d ∈ used then pickFirstUnused used ds else some d

/-- The used-set actually consulted by a `generateCombo` call: the
reset branch (src/app.js:423-425) empties it when
`used.length >= combos.length - 2`. -/
def consultedUsed (d : Difficulty) (used : List Nat) : List Nat :=
  if (COMBO_LIBRARY d).length - 2 ≤ used.length then [] else used

/-- One call of `generateCombo()` (src/app.js:418-435) restricted to
its index-selection effect on `usedComboIndices[difficulty]`: reset the
used list when at most two entries are still unused, then draw the
first unused random index and append it. Returns the selected index
and the updated used list. -/
def generateCombo (d : Difficulty) (draws : List Nat) (used : List Nat) :
    Option (Nat × List Nat) :=
  match pickFirstUnused (consultedUsed d used) draws with
  | some i => some (i, consultedUsed d used ++ [i])
  | none => none

/-- A session of successive `generateCombo` calls on one tier, starting
from a given used list, each call with its own stream of random draws.
Returns the final `usedComboIndices[d]`. -/
def runGenerate (d : Difficulty) : List (List Nat) → List Nat → Option (List Nat)
  | [], used => some used
  | r :: rs, used =>
    match generateCombo d r used with
    | some e => runGenerate d rs e.2
    | none => none

/-- C3 counterexample: on the easy tier (library size N = 10) the used
set is reset after only N − 2 = 8 draws, while two entries are still
unused: after the eight draws 0…7, the ninth call resets the used list
and can re-select index 0 — a repeat that the claim (reset only after
N − 1 draws, once fewer than 2 unused remain) forbids. -/
theorem c3_counterexample :
    (COMBO_LIBRARY .easy).length = 10
    ∧ runGenerate .easy [[0], [1], [2], [3], [4], [5], [6], [7]] []
        = some [0, 1, 2, 3, 4, 5, 6, 7]
    ∧ generateCombo .easy [0] [0, 1, 2, 3, 4, 5, 6, 7] = some (0, [0]) := by
  decide

lemma pickFirstUnused_spec (used : List Nat) :
    ∀ (draws : List Nat) (i : Nat), pickFirstUnused used draws = some i →
      i ∉ used ∧ i ∈ draws := by
  intro draws
  induction draws with
  | nil => intro i h; exact absurd h (by simp [pickFirstUnused])
  | cons d ds ih =>
      intro i h
      by_cases hd : d ∈ used
      · have h2 : pickFirstUnused used ds = some i := by
          simpa [pickFirstUnused, hd] using h
        obtain ⟨h3, h4⟩ := ih i h2
        exact ⟨h3, List.mem_cons_of_mem d h4⟩
      · have h2 : i = d := by
          have := h
          simp [pickFirstUnused, hd] at this
          omega
        subst h2
        exact ⟨hd, List.mem_cons_self _ _⟩

/-- C3 amended: within a shuffle epoch — that is, while the used list
has fewer than N − 2 entries — a `generateCombo` call never re-selects
an index already in the used list; the used list is reset exactly at
the call that finds N − 2 entries in it, i.e. once at most two (not
fewer than two) unused entries remain. -/
theorem c3_amended (d : Difficulty) (draws used : List Nat) (i : Nat)
    (used' : List Nat) (h : generateCombo d draws used = some (i, used')) :
    (used.length < (COMBO_LIBRARY d).length - 2 → i ∉ used ∧ used' = used ++ [i])
    ∧ ((COMBO_LIBRARY d).length - 2 ≤ used.length → used' = [i]) := by
  constructor
  · intro hlt
    have hc : consultedUsed d used = used := by
      simp [consultedUsed]; omega
    rw [generateCombo, hc] at h
    cases hp : pickFirstUnused used draws with
    | none => rw [hp] at h; exact absurd h (by simp)
    | some j =>
        rw [hp] at h
        simp only [Option.some.injEq, Prod.mk.injEq] at h
        obtain ⟨h1, h2⟩ := h
        subst h1
        exact ⟨(pickFirstUnused_spec used draws _ hp).1, h2.symm⟩
  · intro hge
    have hc : consultedUsed d used = [] := by
      simp [consultedUsed, hge]
    rw [generateCombo, hc] at h
    cases hp : pickFirstUnused [] draws with
    | none => rw [hp] at h; exact absurd h (by simp)
    | some j =>
        rw [hp] at h
        simp only [Option.some.injEq, Prod.mk.injEq] at h
        obtain ⟨h1, h2⟩ := h
        subst h1
        simpa using h2.symm

theorem c3_amended_witness :
    generateCombo .easy [3] [1] = some (3, [1, 3])
    ∧ (([1] : List Nat).length < (COMBO_LIBRARY .easy).length - 2 →
        3 ∉ ([1] : List Nat) ∧ ([1, 3] : List Nat) = [1] ++ [3])
    ∧ ((COMBO_LIBRARY .easy).length - 2 ≤ ([1] : List Nat).length →
        ([1, 3] : List Nat) = [3]) :=
  ⟨by decide, c3_amended .easy [3] [1] 3 [1, 3] (by decide)⟩

/-- The invariant on `usedComboIndices[d]`: pairwise-distinct indices
into the tier's library, at most N − 2 of them. -/
def ComboInv (d : Difficulty) (used : List Nat) : Prop :=
  used.Nodup ∧ used.length ≤ (COMBO_LIBRARY d).length - 2
  ∧ ∀ i ∈ used, i < (COMBO_LIBRARY d).length

lemma comboLibrary_length_ge (d : Difficulty) :
    3 ≤ (COMBO_LIBRARY d).length := by
  cases d <;> decide

lemma consultedUsed_len3 (d : Difficulty) (used : List Nat) :
    (consultedUsed d used).length + 3 ≤ (COMBO_LIBRARY d).length := by
  have h3 := comboLibrary_length_ge d
  unfold consultedUsed
  split
  · simp only [List.length_nil]; omega
  · omega

lemma consultedUsed_short (d : Difficulty) (used : List Nat) :
    (consultedUsed d used).length + 2 ≤ (COMBO_LIBRARY d).length := by
  have h := consultedUsed_len3 d used
  omega

lemma consultedUsed_inv (d : Difficulty) (used : List Nat)
    (hinv : ComboInv d used) :
    (consultedUsed d used).Nodup
    ∧ (∀ i ∈ consultedUsed d used, i < (COMBO_LIBRARY d).length) := by
  obtain ⟨h1, h2, h3⟩ := hinv
  unfold consultedUsed
  split
  · simp
  · exact ⟨h1, h3⟩

lemma exists_unused (n : Nat) (l : List Nat) (hnd : l.Nodup)
    (hlt : ∀ i ∈ l, i < n) (hlen : l.length < n) :
    ∃ j, j < n ∧ j ∉ l := by
  by_contra hcon
  push_neg at hcon
  have hsub : Finset.range n ⊆ l.toFinset := by
    intro j hj
    rw [List.mem_toFinset]
    exact hcon j (Finset.mem_range.mp hj)
  have hcard := Finset.card_le_card hsub
  rw [Finset.card_range, List.toFinset_card_of_nodup hnd] at hcard
  omega

lemma generateCombo_inv (d : Difficulty) (draws used : List Nat)
    (i : Nat) (used' : List Nat)
    (hdraws : ∀ x ∈ draws, x < (COMBO_LIBRARY d).length)
    (hinv : ComboInv d used)
    (h : generateCombo d draws used = some (i, used')) :
    ComboInv d used' := by
  obtain ⟨hnd, hbound⟩ := consultedUsed_inv d used hinv
  have hlen := consultedUsed_len3 d used
  rw [generateCombo] at h
  cases hp : pickFirstUnused (consultedUsed d used) draws with
  | none => rw [hp] at h; exact absurd h (by simp)
  | some j =>
      rw [hp] at h
      simp only [Option.some.injEq, Prod.mk.injEq] at h
      obtain ⟨h1, h2⟩ := h
      subst h1
      obtain ⟨hjnot, hjmem⟩ := pickFirstUnused_spec _ draws _ hp
      refine h2 ▸ ⟨?_, ?_, ?_⟩
      · simpa [List.nodup_append] using ⟨hnd, hjnot⟩
      · simp only [List.length_append, List.length_singleton]
        omega
      · intro x hx
        rcases List.mem_append.mp hx with hx | hx
        · exact hbound x hx
        · rw [List.mem_singleton.mp hx]
          exact hdraws _ hjmem

lemma runGenerate_inv (d : Difficulty) :
    ∀ (runs : List (List Nat)) (used used' : List Nat),
      (∀ r ∈ runs, ∀ x ∈ r, x < (COMBO_LIBRARY d).length) →
      ComboInv d used → runGenerate d runs used = some used' →
      ComboInv d used' := by
  intro runs
  induction runs with
  | nil =>
      intro used used' _ hinv h
      simp only [runGenerate, Option.some.injEq] at h
      exact h ▸ hinv
  | cons r rs ih =>
      intro used used' hd hinv h
      simp only [runGenerate] at h
      cases hg : generateCombo d r used with
      | none => rw [hg] at h; exact absurd h (by simp)
      | some e =>
          rw [hg] at h
          have hinv2 := generateCombo_inv d r used e.1 e.2
            (hd r (List.mem_cons_self _ _)) hinv (by rw [hg])
          exact ih e.2 used' (fun q hq => hd q (List.mem_cons_of_mem _ hq)) hinv2 h

/-- C10: starting from the initial (empty) per-tier used list, after
every sequence of `generateCombo` calls the used list holds
pairwise-distinct valid library indices and at most N − 2 of them;
consequently at the moment of every random selection — i.e. on the
used list actually consulted after the reset branch — at least two
library indices are unused, so the rejection loop always has an
admissible index it can return. -/
theorem c10_used_invariant (d : Difficulty) (runs : List (List Nat))
    (used' : List Nat)
    (hdraws : ∀ r ∈ runs, ∀ x ∈ r, x < (COMBO_LIBRARY d).length)
    (hrun : runGenerate d runs [] = some used') :
    ComboInv d used'
    ∧ ∀ used : List Nat, ComboInv d used →
        (consultedUsed d used).length + 2 ≤ (COMBO_LIBRARY d).length
        ∧ ∃ j, j < (COMBO_LIBRARY d).length ∧ j ∉ consultedUsed d used := by
  constructor
  · exact runGenerate_inv d runs [] used' hdraws (by simp [ComboInv]) hrun
  · intro used hinv
    have hshort := consultedUsed_short d used
    obtain ⟨hnd, hbound⟩ := consultedUsed_inv d used hinv
    exact ⟨hshort, exists_unused _ _ hnd hbound (by omega)⟩

theorem c10_used_invariant_witness :
    (runGenerate .easy [[0], [5]] [] = some [0, 5])
    ∧ ComboInv .easy [0, 5]
    ∧ ((consultedUsed .easy [2]).length + 2 ≤ (COMBO_LIBRARY .easy).length
        ∧ ∃ j, j < (COMBO_LIBRARY .easy).length ∧ j ∉ consultedUsed .easy [2]) :=
  ⟨by decide,
    (c10_used_invariant .easy [[0], [5]] [0, 5] (by decide) (by decide)).1,
    (c10_used_invariant .easy [[0], [5]] [0, 5] (by decide) (by decide)).2 [2]
      (by constructor
          · decide
          · constructor
            · decide
            · decide)⟩

/-- The repeating combo schedule installed by `startComboInterval()`
(src/app.js:585-608): `setInterval(cb, state.comboIntervalMs +
randomVariance())`. `randomVariance()` is evaluated exactly once, when
the interval is installed; the resulting period is fixed for the whole
schedule. `rand` is the single `Math.random()` draw consumed there. -/
structure ComboSchedule where
  comboIntervalMs : Int
  periodMs : Rat
deriving DecidableEq

/-- `startComboInterval()` (src/app.js:585-608): reads the configured
base interval (seconds), clamps it to 8 s on the hard tier, and
installs a fixed-period repeating timer with period
`base*1000 + (rand*2000 - 1000)`. -/
def startComboInterval (d : Difficulty) (intervalSelect : Int) (rand : Rat) :
    ComboSchedule :=
  let intervalSec : Int :=
    if d = .hard ∧ intervalSelect < 8 then 8 else intervalSelect
  { comboIntervalMs := intervalSec * 1000
    periodMs := ((intervalSec * 1000 : Int) : Rat) + (rand * 2000 - 1000) }

/-- Firing instants of a `setInterval` schedule with a fixed period:
the k-th callback runs `(k+1) * period` after installation. -/
def comboFireTime (sch : ComboSchedule) (k : Nat) : Rat :=
  ((k : Rat) + 1) * sch.periodMs

/-- The delay between the (k−1)-th and k-th firings (installation to
first firing for k = 0). -/
def comboFireDelay (sch : ComboSchedule) : Nat → Rat
  | 0 => comboFireTime sch 0
  | k + 1 => comboFireTime sch (k + 1) - comboFireTime sch k

/-- Modelled from the spec: the delay before each successive firing is
the base interval plus an independent uniform ±1000 ms jitter drawn
anew for each firing (`draws k` is the `Math.random()` value the spec
would have the scheduler draw for the k-th firing). -/
def specJitteredDelay (baseMs : Rat) (draws : Nat → Rat) (k : Nat) : Rat :=
  baseMs + (draws k * 2000 - 1000)

/-- A concrete random stream: first draw 0, all later draws 1/2. -/
def c4Draws : Nat → Rat := fun k => if k = 0 then 0 else 1/2

/-- C4 counterexample: with base interval 6 s and the stream `c4Draws`,
the code's schedule consumes only the setup draw (period 5000 ms), so
the delay before the second firing is 5000 ms — not the
6000 ms = base + fresh-jitter(draw 1) that the claim requires — and the
delay is the same before every firing (a fixed periodic timer). -/
theorem c4_counterexample :
    comboFireDelay (startComboInterval .medium 6 (c4Draws 0)) 1
      ≠ specJitteredDelay 6000 c4Draws 1
    ∧ comboFireDelay (startComboInterval .medium 6 (c4Draws 0)) 1
      = comboFireDelay (startComboInterval .medium 6 (c4Draws 0)) 0 := by
  have hne : (Difficulty.medium = Difficulty.hard) = False := by simp
  constructor
  · norm_num [comboFireDelay, comboFireTime, startComboInterval,
      specJitteredDelay, c4Draws, hne]
  · norm_num [comboFireDelay, comboFireTime, startComboInterval, c4Draws, hne]

/-- C4 amended: the jitter is drawn exactly once, when the schedule is
installed; every firing delay equals the (hard-clamped) base interval
plus that single ±1000 ms draw, i.e. the schedule is a fixed periodic
timer whose period is fixed by one jitter draw at setup. -/
theorem c4_amended (d : Difficulty) (intervalSelect : Int) (rand : Rat) (k : Nat) :
    comboFireDelay (startComboInterval d intervalSelect rand) k
      = ((startComboInterval d intervalSelect rand).comboIntervalMs : Rat)
          + (rand * 2000 - 1000) := by
  cases k with
  | zero =>
      simp [comboFireDelay, comboFireTime, startComboInterval]
  | succ n =>
      simp only [comboFireDelay, comboFireTime, startComboInterval]
      push_cast
      ring

/-- One phase of a breathing pattern (src/app.js:133-158). -/
structure BreathPhase where
  phase : String
  duration : Int
  audio : String
  ring : String
deriving DecidableEq

structure BreathingPattern where
  name : String
  phases : List BreathPhase
deriving DecidableEq

/-- `BREATHING_PATTERNS.box` (src/app.js:134-142). -/
def boxPattern : BreathingPattern :=
  { name := "Box Breathing"
    phases :=
      [{ phase := "Nefes Al", duration := 4, audio := "inhale.mp3", ring := "inhale" },
       { phase := "Tut", duration := 4, audio := "hold.mp3", ring := "hold" },
       { phase := "Nefes Ver", duration := 4, audio := "exhale.mp3", ring := "exhale" },
       { phase := "Tut", duration := 4, audio := "hold.mp3", ring := "hold" }] }

/-- `BREATHING_PATTERNS['478']` (src/app.js:143-150). -/
def fourSevenEightPattern : BreathingPattern :=
  { name := "4-7-8"
    phases :=
      [{ phase := "Nefes Al", duration := 4, audio := "inhale.mp3", ring := "inhale" },
       { phase := "Tut", duration := 7, audio := "hold.mp3", ring := "hold" },
       { phase := "Nefes Ver", duration := 8, audio := "exhale.mp3", ring := "exhale" }] }

/-- `BREATHING_PATTERNS.resonant` (src/app.js:151-157). -/
def resonantPattern : BreathingPattern :=
  { name := "Resonant"
    phases :=
      [{ phase := "Nefes Al", duration := 5, audio := "inhale.mp3", ring := "inhale" },
       { phase := "Nefes Ver", duration := 5, audio := "exhale.mp3", ring := "exhale" }] }

/-- The `BREATHING_PATTERNS` object (src/app.js:133-158), keyed by
`state.currentExercise`. -/
def BREATHING_PATTERNS (key : String) : Option BreathingPattern :=
  if key = "box" then some boxPattern
  else if key = "478" then some fourSevenEightPattern
  else if key = "resonant" then some resonantPattern
  else none

/-- The state of `runBreathingCycle()`'s 1-second interval closure
(src/app.js:827-881): the closure variables `phaseIndex` and
`countdown`, the global `state.breathingActive` / `currentCycle` /
`totalCycles`, plus two event counters recording how often the
phase-advance (`phaseIndex++`) and the completion branch
(`stopBreathing` + completion cue) have run. -/
structure BreathState where
  breathingActive : Bool
  currentCycle : Nat
  totalCycles : Nat
  phaseIndex : Nat
  countdown : Int
  advances : Nat
  completed : Bool
deriving DecidableEq

def defaultBreathPhase : BreathPhase :=
  { phase := "", duration := 0, audio := "", ring := "" }

/-- One 1000 ms tick of the `setInterval` body of `runBreathingCycle()`
(src/app.js:850-880): decrement the countdown; at zero advance the
phase; past the last phase close the cycle; at
`currentCycle >= totalCycles` stop and fire completion. -/
def breathTick (pattern : BreathingPattern) (s : BreathState) : BreathState :=
  if s.breathingActive = false then s
  else
    let countdown := s.countdown - 1
    if countdown ≤ 0 then
      let phaseIndex := s.phaseIndex + 1
      if pattern.phases.length ≤ phaseIndex then
        let currentCycle := s.currentCycle + 1
        if s.totalCycles ≤ currentCycle then
          { s with breathingActive := false
                   currentCycle := currentCycle
                   phaseIndex := phaseIndex
                   countdown := countdown
                   advances := s.advances + 1
                   completed := true }
        else
          { s with currentCycle := currentCycle
                   phaseIndex := 0
                   countdown := (pattern.phases.getD 0 defaultBreathPhase).duration
                   advances := s.advances + 1 }
      else
        { s with phaseIndex := phaseIndex
                 countdown := (pattern.phases.getD phaseIndex defaultBreathPhase).duration
                 advances := s.advances + 1 }
    else { s with countdown := countdown }

/-- `startBreathing()` + the head of `runBreathingCycle()`
(src/app.js:804-848): cycle 0, phase 0, countdown = first phase's
duration, session active. -/
def breathInit (pattern : BreathingPattern) (totalCycles : Nat) : BreathState :=
  { breathingActive := true
    currentCycle := 0
    totalCycles := totalCycles
    phaseIndex := 0
    countdown := (pattern.phases.getD 0 defaultBreathPhase).duration
    advances := 0
    completed := false }

/-- C9: for `totalCycles = 3` and the box pattern (4 phases of 4 s
each), the session runs 48 ticks; exactly 12 phase-advance events have
occurred when completion fires at tick 48 (after 47 ticks only 11
advances and no completion), and the session is stopped exactly then. -/
theorem c9_breathing_advances :
    BREATHING_PATTERNS "box" = some boxPattern
    ∧ (Nat.iterate (breathTick boxPattern) 48 (breathInit boxPattern 3)).advances = 12
    ∧ (Nat.iterate (breathTick boxPattern) 48 (breathInit boxPattern 3)).completed = true
    ∧ (Nat.iterate (breathTick boxPattern) 48 (breathInit boxPattern 3)).breathingActive = false
    ∧ (Nat.iterate (breathTick boxPattern) 47 (breathInit boxPattern 3)).completed = false
    ∧ (Nat.iterate (breathTick boxPattern) 47 (breathInit boxPattern 3)).advances = 11 := by
  decide
